import Mathlib

/-!
Shallow embedding of the `rusty_todo_list` application (`src/main.rs`):
a cursive terminal UI over a SQLite table
`tasks(name TEXT PRIMARY KEY, completed BOOLEAN)`.

Storage is modelled as a list of rows in insertion/scan order (the program
issues `SELECT name, completed FROM tasks` with no ORDER BY, and SQLite
returns rows of this workload in rowid = insertion order).  The cursive
`SelectView` is modelled as a list of (styled label, raw data string) items
plus a focus index; `selected_id()` returns `none` exactly when the list is
empty.  Fallible SQL calls return `Except`; the Rust `expect` calls that
abort the process are modelled as an `Option String` panic-message channel.
-/

namespace RustyTodo

/-- Rendering effect of a cursive `SpannedString`: `Effect::Simple`
(plain, also used for unstyled labels, which render identically) or
`Effect::Strikethrough`. -/
inductive Effect where
  | Simple
  | Strikethrough
deriving DecidableEq

/-- A styled label: the raw source text (`styled.source()` in the code)
plus its rendering effect. -/
structure StyledString where
  source : String
  effect : Effect
deriving DecidableEq

/-- `struct Task` from `main.rs`: one persisted row. -/
structure Task where
  name : String
  completed : Bool
deriving DecidableEq

/-- The `tasks` table contents, in insertion/scan order. -/
abbrev Storage := List Task

/-- One column of a SQL table schema. -/
structure Column where
  cname : String
  ctype : String
  primaryKey : Bool
deriving DecidableEq

/-- Database file state for the schema-level operation `create_table`:
the `tasks` table schema when it exists, and its rows. -/
structure DB where
  schema : Option (List Column)
  rows : Storage
deriving DecidableEq

/-- The schema written by `create_table`:
`name TEXT PRIMARY KEY, completed BOOLEAN`. -/
def tasksTable : List Column :=
  [⟨"name", "TEXT", true⟩, ⟨"completed", "BOOLEAN", false⟩]

/-- `create_table`: `CREATE TABLE IF NOT EXISTS tasks (name TEXT PRIMARY
KEY, completed BOOLEAN)`.  `IF NOT EXISTS` makes this a no-op when the
table already exists; otherwise it creates the empty table. -/
def create_table (db : DB) : Except String DB :=
  match db.schema with
  | some _ => .ok db
  | none => .ok ⟨some tasksTable, db.rows⟩

/-- `retrieve_list`: `SELECT name, completed FROM tasks`, then style each
row `Effect::Simple` when `!completed` and `Effect::Strikethrough`
otherwise. -/
def retrieve_list (st : Storage) : List StyledString :=
  st.map (fun t =>
    if !t.completed then ⟨t.name, Effect.Simple⟩
    else ⟨t.name, Effect.Strikethrough⟩)

/-- `insert_data`: `INSERT INTO tasks (name, completed) VALUES (?1, ?2)`
with `completed = false`.  `name` is the primary key, so SQLite rejects a
duplicate with a UNIQUE-constraint error and leaves the table unchanged;
otherwise the row is appended. -/
def insert_data (st : Storage) (task_name : String) : Except String Storage :=
  if st.any (fun t => t.name = task_name) then
    .error "UNIQUE constraint failed: tasks.name"
  else
    .ok (st ++ [⟨task_name, false⟩])

/-- `delete_data`: `DELETE FROM tasks WHERE (name) IS (?1)` - removes
every row whose name equals the argument exactly. -/
def delete_data (st : Storage) (task_data : String) : Storage :=
  st.filter (fun t => !(t.name = task_data))

/-- `get_status`: `SELECT completed FROM tasks WHERE name = ?1`, first
matching row, with `.unwrap_or(false)` - a missing row yields `false`. -/
def get_status (st : Storage) (task : String) : Bool :=
  match st.find? (fun t => t.name = task) with
  | some t => t.completed
  | none => false

/-- `update_status`: `UPDATE tasks SET completed = ?2 WHERE name IS ?1`
with parameter `!status` - every row named `task` gets `completed :=
!status`; zero matching rows leave storage unchanged. -/
def update_status (st : Storage) (task : String) (status : Bool) : Storage :=
  st.map (fun t =>
    if t.name = task then ⟨t.name, !status⟩ else t)

/-- One item of the cursive `SelectView<String>`: styled label and raw
data string. -/
abbrev Item := StyledString × String

/-- `SelectView::remove_item(i)`: drop the item at index `i`. -/
def remove_item : List Item → Nat → List Item
  | [], _ => []
  | _ :: xs, 0 => xs
  | x :: xs, n + 1 => x :: remove_item xs n

/-- `SelectView::insert_item(i, label, data)`: insert at index `i`. -/
def insert_item : List Item → Nat → Item → List Item
  | xs, 0, a => a :: xs
  | [], _ + 1, a => [a]
  | x :: xs, n + 1, a => x :: insert_item xs n a

/-- `SelectView::add_item_str(s)`: append an item whose label is the
unstyled (plain-rendered) text `s` and whose data is `s` itself. -/
def add_item_str (view : List Item) (task_name : String) : List Item :=
  view ++ [(⟨task_name, Effect.Simple⟩, task_name)]

/-- Whole-application state: the persisted table, the visible
`SelectView` items, and its focused index. -/
structure AppState where
  storage : Storage
  view : List Item
  focus : Nat
deriving DecidableEq

/-- `SelectView::selected_id()`: `none` exactly when the list is empty,
otherwise the focused index (cursive keeps the focus in range). -/
def selected_id (view : List Item) (focus : Nat) : Option Nat :=
  if view.length = 0 then none else some focus

/-- The `ok` handler of the add flow: append the submitted text to the
view via `add_item_str`, then run `insert_data`; its `.expect("Failed to
insert item")` aborts the process on error.  Returns the state as mutated
so far, paired with the panic message when the process aborted. -/
def ok (s : AppState) (task_name : String) : AppState × Option String :=
  let view1 := add_item_str s.view task_name
  match insert_data s.storage task_name with
  | .ok storage1 => (⟨storage1, view1, s.focus⟩, none)
  | .error _ => (⟨s.storage, view1, s.focus⟩, some "Failed to insert item")

/-- `remove_todo`: on empty selection show the `Dialog::info("No task to
remove")` notice and change nothing; otherwise read the selected item's
data, remove the item from the view, then delete that name from storage.
The second component is the notice text when one is displayed; a missing
item under a valid selection would hit
`.expect("Failed to access task data for deletion")`. -/
def remove_todo (s : AppState) : Except String (AppState × Option String) :=
  match selected_id s.view s.focus with
  | none => .ok (s, some "No task to remove")
  | some focus =>
    match s.view.get? focus with
    | none => .error "Failed to access task data for deletion"
    | some item =>
      let view1 := remove_item s.view focus
      let storage1 := delete_data s.storage item.2
      .ok (⟨storage1, view1, s.focus⟩, none)

/-- `set_status`, the toggle-completion handler (`on_submit` passes the
selected item's data string as `task`): read the selected id, fetch the
item's data, remove it from the view, fetch the completion flag once via
`get_status`, write the negated flag via `update_status`, re-insert the
item at the same index styled `Strikethrough` when the fetched flag was
`false` and `Simple` when it was `true`, and restore the selection. -/
def set_status (s : AppState) (task : String) : AppState :=
  match selected_id s.view s.focus with
  | none => s
  | some id =>
    let task_data := (s.view.get? id).map (fun it => it.2)
    let view1 := remove_item s.view id
    match task_data with
    | some data =>
      let task_status := get_status s.storage task
      let storage1 := update_status s.storage task task_status
      let view2 :=
        if !task_status then
          insert_item view1 id (⟨task, Effect.Strikethrough⟩, data)
        else
          insert_item view1 id (⟨task, Effect.Simple⟩, data)
      ⟨storage1, view2, id⟩
    | none => ⟨s.storage, view1, id⟩

/-! ### Helper lemmas about the view and storage operations -/

lemma get?_some_lt {α : Type} : ∀ (l : List α) (i : Nat) (a : α),
    l.get? i = some a → i < l.length := by
  intro l
  induction l with
  | nil => intro i a h; simp [List.get?] at h
  | cons x xs ih =>
    intro i a h
    cases i with
    | zero => simp
    | succ n =>
      have := ih n a h
      simp [List.length_cons]
      omega

lemma length_remove_item : ∀ (l : List Item) (i : Nat), i < l.length →
    (remove_item l i).length = l.length - 1 := by
  intro l
  induction l with
  | nil => intro i h; simp at h
  | cons x xs ih =>
    intro i h
    cases i with
    | zero => simp [remove_item]
    | succ n =>
      have hn : n < xs.length := by simp [List.length_cons] at h; omega
      simp [remove_item, List.length_cons, ih n hn]
      omega

lemma remove_insert : ∀ (l : List Item) (i : Nat) (a : Item), i ≤ l.length →
    remove_item (insert_item l i a) i = l := by
  intro l
  induction l with
  | nil =>
    intro i a h
    have : i = 0 := by simpa using h
    subst this
    rfl
  | cons x xs ih =>
    intro i a h
    cases i with
    | zero => rfl
    | succ n =>
      have hn : n ≤ xs.length := by simp [List.length_cons] at h; omega
      simp [insert_item, remove_item, ih n a hn]

lemma insert_remove_set : ∀ (l : List Item) (i : Nat) (a : Item), i < l.length →
    insert_item (remove_item l i) i a = l.set i a := by
  intro l
  induction l with
  | nil => intro i a h; simp at h
  | cons x xs ih =>
    intro i a h
    cases i with
    | zero => simp [remove_item, insert_item]
    | succ n =>
      have hn : n < xs.length := by simp [List.length_cons] at h; omega
      simp [remove_item, insert_item, List.set, ih n a hn]

lemma get_insert : ∀ (l : List Item) (i : Nat) (a : Item), i ≤ l.length →
    (insert_item l i a).get? i = some a := by
  intro l
  induction l with
  | nil =>
    intro i a h
    have : i = 0 := by simpa using h
    subst this
    rfl
  | cons x xs ih =>
    intro i a h
    cases i with
    | zero => rfl
    | succ n =>
      have hn : n ≤ xs.length := by simp [List.length_cons] at h; omega
      simpa [insert_item, List.get?] using ih n a hn

lemma set_get_self {α : Type} : ∀ (l : List α) (i : Nat) (a : α),
    l.get? i = some a → l.set i a = l := by
  intro l
  induction l with
  | nil => intro i a h; simp [List.get?] at h
  | cons x xs ih =>
    intro i a h
    cases i with
    | zero =>
      have h' : x = a := by simpa [List.get?] using h
      simp [List.set, h']
    | succ n =>
      have h' : xs.get? n = some a := h
      simp [List.set, ih n a h']

lemma update_status_noop (st : Storage) (task : String) (c : Bool)
    (h : ∀ t ∈ st, t.name ≠ task) : update_status st task c = st := by
  induction st with
  | nil => rfl
  | cons t ts ih =>
    have h1 : t.name ≠ task := h t (List.mem_cons_self t ts)
    have h2 : update_status ts task c = ts :=
      ih (fun x hx => h x (List.mem_cons_of_mem _ hx))
    simpa [update_status, h1] using h2

lemma get_status_of_find (st : Storage) (task : String) (b : Bool)
    (hf : st.find? (fun t => t.name = task) = some ⟨task, b⟩) :
    get_status st task = b := by
  simp [get_status, hf]

lemma get_status_of_absent (st : Storage) (task : String)
    (h : ∀ t ∈ st, t.name ≠ task) : get_status st task = false := by
  have : st.find? (fun t => t.name = task) = none := by
    apply List.find?_eq_none.mpr
    intro x hx
    simp [h x hx]
  simp [get_status, this]

lemma find?_cons_name_pos (t : Task) (ts : Storage) (task : String)
    (h : t.name = task) :
    (t :: ts).find? (fun x => x.name = task) = some t := by
  simp [List.find?, h]

lemma find?_cons_name_neg (t : Task) (ts : Storage) (task : String)
    (h : ¬t.name = task) :
    (t :: ts).find? (fun x => x.name = task) =
      ts.find? (fun x => x.name = task) := by
  simp [List.find?, h]

lemma nodup_tail_absent (t : Task) (ts : Storage) (task : String)
    (hnd : (((t :: ts).map Task.name)).Nodup) (hname : t.name = task) :
    ∀ x ∈ ts, x.name ≠ task := by
  rw [List.map_cons, List.nodup_cons] at hnd
  intro x hx hcontra
  exact hnd.1 (by
    rw [hname, ← hcontra]
    exact List.mem_map_of_mem Task.name hx)

lemma nodup_name_tail (t : Task) (ts : Storage)
    (hnd : (((t :: ts).map Task.name)).Nodup) :
    ((ts.map Task.name)).Nodup := by
  rw [List.map_cons, List.nodup_cons] at hnd
  exact hnd.2

lemma find?_update (st : Storage) (task : String) (b status : Bool)
    (hf : st.find? (fun t => t.name = task) = some ⟨task, b⟩) :
    (update_status st task status).find? (fun t => t.name = task) =
      some ⟨task, !status⟩ := by
  induction st with
  | nil => simp [List.find?] at hf
  | cons t ts ih =>
    by_cases hname : t.name = task
    · rw [find?_cons_name_pos t ts task hname] at hf
      have hup : update_status (t :: ts) task status =
          ⟨t.name, !status⟩ :: update_status ts task status := by
        simp [update_status, hname]
      rw [hup,
        find?_cons_name_pos ⟨t.name, !status⟩ (update_status ts task status) task hname,
        hname]
    · rw [find?_cons_name_neg t ts task hname] at hf
      have hup : update_status (t :: ts) task status =
          t :: update_status ts task status := by
        simp [update_status, hname]
      rw [hup, find?_cons_name_neg _ _ _ hname]
      exact ih hf

lemma update_update (st : Storage) (task : String) (b : Bool)
    (hnd : ((st.map Task.name)).Nodup)
    (hf : st.find? (fun t => t.name = task) = some ⟨task, b⟩) :
    update_status (update_status st task b) task (!b) = st := by
  induction st with
  | nil => rfl
  | cons t ts ih =>
    by_cases hname : t.name = task
    · have ht : t = ⟨task, b⟩ := by
        rw [find?_cons_name_pos t ts task hname] at hf
        exact Option.some.inj hf
      have htail : ∀ x ∈ ts, x.name ≠ task := nodup_tail_absent t ts task hnd hname
      have h1 : update_status ts task b = ts := update_status_noop ts task b htail
      have h2 : update_status ts task (!b) = ts := update_status_noop ts task (!b) htail
      have step1 : update_status (t :: ts) task b = ⟨t.name, !b⟩ :: ts := by
        show (if t.name = task then (⟨t.name, !b⟩ : Task) else t) ::
          update_status ts task b = _
        rw [if_pos hname, h1]
      have step2 : update_status (⟨t.name, !b⟩ :: ts) task (!b) =
          ⟨t.name, !(!b)⟩ :: ts := by
        show (if t.name = task then (⟨t.name, !(!b)⟩ : Task) else ⟨t.name, !b⟩) ::
          update_status ts task (!b) = _
        rw [if_pos hname, h2]
      rw [step1, step2, Bool.not_not]
      simp [ht]
    · have hf' : ts.find? (fun x => x.name = task) = some ⟨task, b⟩ := by
        rwa [find?_cons_name_neg t ts task hname] at hf
      have hnd' : ((ts.map Task.name)).Nodup := nodup_name_tail t ts hnd
      have step1 : update_status (t :: ts) task b = t :: update_status ts task b := by
        show (if t.name = task then (⟨t.name, !b⟩ : Task) else t) ::
          update_status ts task b = _
        rw [if_neg hname]
      have step2 : update_status (t :: update_status ts task b) task (!b) =
          t :: update_status (update_status ts task b) task (!b) := by
        show (if t.name = task then (⟨t.name, !(!b)⟩ : Task) else t) ::
          update_status (update_status ts task b) task (!b) = _
        rw [if_neg hname]
      rw [step1, step2, ih hnd' hf']

lemma update_status_set (st : Storage) (task : String) (b status : Bool)
    (hnd : ((st.map Task.name)).Nodup)
    (hf : st.find? (fun t => t.name = task) = some ⟨task, b⟩) :
    ∃ i, st.get? i = some ⟨task, b⟩ ∧
      update_status st task status = st.set i ⟨task, !status⟩ := by
  induction st with
  | nil => simp [List.find?] at hf
  | cons t ts ih =>
    by_cases hname : t.name = task
    · have ht : t = ⟨task, b⟩ := by
        rw [find?_cons_name_pos t ts task hname] at hf
        exact Option.some.inj hf
      have htail : ∀ x ∈ ts, x.name ≠ task := nodup_tail_absent t ts task hnd hname
      have h1 : update_status ts task status = ts :=
        update_status_noop ts task status htail
      refine ⟨0, by simp [List.get?, ht], ?_⟩
      have step1 : update_status (t :: ts) task status = ⟨t.name, !status⟩ :: ts := by
        show (if t.name = task then (⟨t.name, !status⟩ : Task) else t) ::
          update_status ts task status = _
        rw [if_pos hname, h1]
      rw [step1]
      simp [List.set, hname]
    · have hf' : ts.find? (fun x => x.name = task) = some ⟨task, b⟩ := by
        rwa [find?_cons_name_neg t ts task hname] at hf
      have hnd' : ((ts.map Task.name)).Nodup := nodup_name_tail t ts hnd
      obtain ⟨i, hg, hu⟩ := ih hnd' hf'
      refine ⟨i + 1, ?_, ?_⟩
      · simpa [List.get?] using hg
      · have step1 : update_status (t :: ts) task status =
            t :: update_status ts task status := by
          show (if t.name = task then (⟨t.name, !status⟩ : Task) else t) ::
            update_status ts task status = _
          rw [if_neg hname]
        rw [step1, hu]
        simp [List.set]

lemma set_status_eq (s : AppState) (task : String) (lbl : StyledString)
    (d : String) (hsel : s.view.get? s.focus = some (lbl, d)) :
    set_status s task =
      ⟨update_status s.storage task (get_status s.storage task),
       (if !(get_status s.storage task) then
          insert_item (remove_item s.view s.focus) s.focus
            (⟨task, Effect.Strikethrough⟩, d)
        else
          insert_item (remove_item s.view s.focus) s.focus
            (⟨task, Effect.Simple⟩, d)),
       s.focus⟩ := by
  have hlt : s.focus < s.view.length := get?_some_lt s.view s.focus _ hsel
  have hsid : selected_id s.view s.focus = some s.focus := by
    rw [selected_id, if_neg (by omega)]
  have hsel' : s.view[s.focus]? = some (lbl, d) := by
    rw [← List.get?_eq_getElem?]
    exact hsel
  simp [set_status, hsid, hsel']

/-! ### Claim theorems -/

/-- Claim C1: starting from any storage state with no task named
"Buy milk", inserting "Buy milk" succeeds and the listing contains
exactly one entry named "Buy milk", rendered in the plain (pending)
style, i.e. with `completed = false`. -/
theorem add_list_roundtrip (st : Storage)
    (h : ∀ t ∈ st, t.name ≠ "Buy milk") :
    ∃ st', insert_data st "Buy milk" = Except.ok st' ∧
      (retrieve_list st').filter (fun x => x.source = "Buy milk") =
        [⟨"Buy milk", Effect.Simple⟩] := by
  have hany : (st.any (fun t => t.name = "Buy milk")) = false := by
    rw [List.any_eq_false]
    intro t ht
    simpa using h t ht
  refine ⟨st ++ [⟨"Buy milk", false⟩], ?_, ?_⟩
  · simp [insert_data, hany]
  · rw [retrieve_list, List.map_append, List.filter_append]
    have h1 : (st.map (fun t =>
        if !t.completed then (⟨t.name, Effect.Simple⟩ : StyledString)
        else ⟨t.name, Effect.Strikethrough⟩)).filter
          (fun x => x.source = "Buy milk") = [] := by
      rw [List.filter_eq_nil_iff]
      intro a ha
      obtain ⟨t, ht, rfl⟩ := List.mem_map.mp ha
      cases hc : t.completed <;> simp [hc, h t ht]
    rw [h1]
    rfl

/-- Witness for C1 at the empty storage state. -/
theorem add_list_roundtrip_witness :
    ∃ st', insert_data ([] : Storage) "Buy milk" = Except.ok st' ∧
      (retrieve_list st').filter (fun x => x.source = "Buy milk") =
        [⟨"Buy milk", Effect.Simple⟩] :=
  add_list_roundtrip [] (by simp)

/-- Claim C5: with storage and visible list holding exactly "A", "B",
"C" in that order (any completion flags, any labels) and "B" selected,
`remove_todo` leaves exactly "A" and "C" in storage and in the visible
list, in the same relative order, touching no other row, and shows no
notice. -/
theorem delete_removes_exactly_one (ca cb cc : Bool)
    (lA lB lC : StyledString) :
    remove_todo ⟨[⟨"A", ca⟩, ⟨"B", cb⟩, ⟨"C", cc⟩],
      [(lA, "A"), (lB, "B"), (lC, "C")], 1⟩ =
      Except.ok (⟨[⟨"A", ca⟩, ⟨"C", cc⟩], [(lA, "A"), (lC, "C")], 1⟩, none) := by
  rfl

/-- Claim C6: inserting a name already present in storage fails with the
primary-key (UNIQUE) constraint error, leaves storage exactly as it was
(no duplicate row, no overwrite), and the add flow's `expect` aborts the
process. -/
theorem duplicate_insert_aborts (s : AppState) (nm : String)
    (h : s.storage.any (fun t => t.name = nm) = true) :
    insert_data s.storage nm =
      Except.error "UNIQUE constraint failed: tasks.name" ∧
    (ok s nm).1.storage = s.storage ∧
    (ok s nm).2 = some "Failed to insert item" := by
  have hins : insert_data s.storage nm =
      Except.error "UNIQUE constraint failed: tasks.name" := by
    simp [insert_data, h]
  refine ⟨hins, ?_, ?_⟩ <;> simp [ok, hins]

/-- Witness for C6: duplicate insert of "A". -/
theorem duplicate_insert_aborts_witness :
    insert_data [⟨"A", false⟩] "A" =
      Except.error "UNIQUE constraint failed: tasks.name" ∧
    (ok ⟨[⟨"A", false⟩], [], 0⟩ "A").1.storage = [⟨"A", false⟩] ∧
    (ok ⟨[⟨"A", false⟩], [], 0⟩ "A").2 = some "Failed to insert item" :=
  duplicate_insert_aborts ⟨[⟨"A", false⟩], [], 0⟩ "A" (by decide)

/-- Claim C7: invoking delete with an empty visible list shows the
informational notice and returns the state untouched - no storage call,
no model mutation, storage rows identical before and after. -/
theorem empty_delete_noop (s : AppState) (h : s.view = []) :
    remove_todo s = Except.ok (s, some "No task to remove") := by
  simp [remove_todo, selected_id, h]

/-- Witness for C7: empty view over a non-empty storage. -/
theorem empty_delete_noop_witness :
    remove_todo ⟨[⟨"A", false⟩], [], 3⟩ =
      Except.ok (⟨[⟨"A", false⟩], [], 3⟩, some "No task to remove") :=
  empty_delete_noop ⟨[⟨"A", false⟩], [], 3⟩ rfl

/-- Claim C9: `create_table` is idempotent - on a database that is fresh
or already carries the app's table, calling it once succeeds and yields
the single well-formed `tasks` table (`name TEXT PRIMARY KEY`,
`completed BOOLEAN`) with rows untouched, and calling it again returns
the very same state with no error. -/
theorem create_table_idempotent (db : DB)
    (h : db.schema = none ∨ db.schema = some tasksTable) :
    ∃ db1, create_table db = Except.ok db1 ∧
      create_table db1 = Except.ok db1 ∧
      db1.schema = some tasksTable ∧ db1.rows = db.rows := by
  rcases h with h | h
  · exact ⟨⟨some tasksTable, db.rows⟩, by simp [create_table, h],
      by simp [create_table], rfl, rfl⟩
  · exact ⟨db, by simp [create_table, h], by simp [create_table, h], h, rfl⟩

/-- Witness for C9 at a fresh database file. -/
theorem create_table_idempotent_witness :
    ∃ db1, create_table ⟨none, []⟩ = Except.ok db1 ∧
      create_table db1 = Except.ok db1 ∧
      db1.schema = some tasksTable ∧ db1.rows = ([] : Storage) :=
  create_table_idempotent ⟨none, []⟩ (Or.inl rfl)

/-- Counterexample to claim C4: with storage and view already holding
"A", submitting "A" makes the insert fail (the process aborts), yet the
visible list is not unchanged - the plain "A" item was appended before
the insert was attempted. -/
theorem add_flow_order_counterexample :
    (ok ⟨[⟨"A", false⟩], [(⟨"A", Effect.Simple⟩, "A")], 0⟩ "A").2 =
      some "Failed to insert item" ∧
    ¬((ok ⟨[⟨"A", false⟩], [(⟨"A", Effect.Simple⟩, "A")], 0⟩ "A").1.view =
      [(⟨"A", Effect.Simple⟩, "A")]) := by
  decide

/-- Claim C4 as amended: in the add flow the visible list is appended to
first - the submitted name is added as a plain item unconditionally -
and only then is the Storage Layer insert attempted; when the insert
succeeds the row is persisted with `completed = false`, and when it
fails the process aborts with the item already appended to the
in-memory list and storage unchanged. -/
theorem add_flow_view_append_first (s : AppState) (nm : String) :
    (ok s nm).1.view = s.view ++ [(⟨nm, Effect.Simple⟩, nm)] ∧
    (s.storage.any (fun t => t.name = nm) = false →
      (ok s nm).1.storage = s.storage ++ [⟨nm, false⟩] ∧
      (ok s nm).2 = none) ∧
    (s.storage.any (fun t => t.name = nm) = true →
      (ok s nm).1.storage = s.storage ∧
      (ok s nm).2 = some "Failed to insert item") := by
  refine ⟨?_, ?_, ?_⟩
  · cases hany : s.storage.any (fun t => t.name = nm) <;>
      simp [ok, insert_data, add_item_str, hany]
  · intro hany
    constructor <;> simp [ok, insert_data, hany]
  · intro hany
    constructor <;> simp [ok, insert_data, hany]

/-- Witness for the amended C4, successful branch at empty storage. -/
theorem add_flow_view_append_first_witness :
    (ok ⟨[], [], 0⟩ "B").1.view = [(⟨"B", Effect.Simple⟩, "B")] ∧
    (ok ⟨[], [], 0⟩ "B").1.storage = [⟨"B", false⟩] ∧
    (ok ⟨[], [], 0⟩ "B").2 = none := by
  refine ⟨(add_flow_view_append_first ⟨[], [], 0⟩ "B").1, ?_, ?_⟩
  · exact ((add_flow_view_append_first ⟨[], [], 0⟩ "B").2.1 (by decide)).1
  · exact ((add_flow_view_append_first ⟨[], [], 0⟩ "B").2.1 (by decide)).2

/-- Counterexample to claim C8: submitting the empty string in the add
flow succeeds (no abort) and a row whose name is the empty string is
now in storage - no non-emptiness check exists. -/
theorem empty_name_inserted_counterexample :
    ((ok ⟨[], [], 0⟩ "").1.storage.any (fun t => t.name = "")) = true ∧
    (ok ⟨[], [], 0⟩ "").2 = none := by
  decide

/-- Claim C8 as amended: the add flow performs no emptiness validation -
it inserts exactly the submitted text with `completed = false`, so
submitting the empty string (absent so far) appends a row with an empty
name to storage and an empty-labelled plain item to the visible list. -/
theorem add_flow_no_empty_check (st : Storage) (view : List Item) (fo : Nat)
    (h : st.any (fun t => t.name = "") = false) :
    (ok ⟨st, view, fo⟩ "").1.storage = st ++ [⟨"", false⟩] ∧
    (ok ⟨st, view, fo⟩ "").1.view = view ++ [(⟨"", Effect.Simple⟩, "")] ∧
    (ok ⟨st, view, fo⟩ "").2 = none := by
  refine ⟨?_, ?_, ?_⟩ <;> simp [ok, insert_data, add_item_str, h]

/-- Witness for the amended C8 at the empty state. -/
theorem add_flow_no_empty_check_witness :
    (ok ⟨[], [], 0⟩ "").1.storage = [⟨"", false⟩] ∧
    (ok ⟨[], [], 0⟩ "").1.view = [(⟨"", Effect.Simple⟩, "")] ∧
    (ok ⟨[], [], 0⟩ "").2 = none :=
  add_flow_no_empty_check [] [] 0 rfl

/-- Claim C10: toggling a selected item whose name has no storage row
reads the flag as `false` (the `unwrap_or(false)` default), leaves
storage unchanged (the UPDATE matches zero rows, and still no row of
that name exists), yet restyles the visible item to strikethrough - a
visible/durable mismatch instead of an error or a pure no-op. -/
theorem toggle_missing_row_mismatch (s : AppState) (task d : String)
    (lbl : StyledString)
    (hsel : s.view.get? s.focus = some (lbl, d))
    (habs : ∀ t ∈ s.storage, t.name ≠ task) :
    get_status s.storage task = false ∧
    (set_status s task).storage = s.storage ∧
    (set_status s task).view =
      s.view.set s.focus (⟨task, Effect.Strikethrough⟩, d) ∧
    ∀ t ∈ (set_status s task).storage, t.name ≠ task := by
  have hlt : s.focus < s.view.length := get?_some_lt s.view s.focus _ hsel
  have hgs : get_status s.storage task = false :=
    get_status_of_absent s.storage task habs
  have hupd : update_status s.storage task false = s.storage :=
    update_status_noop s.storage task false habs
  have hred := set_status_eq s task lbl d hsel
  rw [hgs] at hred
  refine ⟨hgs, ?_, ?_, ?_⟩
  · rw [hred]
    exact hupd
  · rw [hred]
    show insert_item (remove_item s.view s.focus) s.focus
      (⟨task, Effect.Strikethrough⟩, d) = _
    exact insert_remove_set s.view s.focus _ hlt
  · rw [hred]
    intro t ht
    exact habs t (hupd ▸ ht)

/-- Witness for C10: view shows "ghost", storage only has "A". -/
theorem toggle_missing_row_mismatch_witness :
    get_status [⟨"A", false⟩] "ghost" = false ∧
    (set_status ⟨[⟨"A", false⟩], [(⟨"ghost", Effect.Simple⟩, "ghost")], 0⟩
      "ghost").storage = [⟨"A", false⟩] ∧
    (set_status ⟨[⟨"A", false⟩], [(⟨"ghost", Effect.Simple⟩, "ghost")], 0⟩
      "ghost").view =
      ([(⟨"ghost", Effect.Simple⟩, "ghost")] : List Item).set 0
        (⟨"ghost", Effect.Strikethrough⟩, "ghost") ∧
    ∀ t ∈ (set_status ⟨[⟨"A", false⟩],
      [(⟨"ghost", Effect.Simple⟩, "ghost")], 0⟩ "ghost").storage,
      t.name ≠ "ghost" :=
  toggle_missing_row_mismatch
    ⟨[⟨"A", false⟩], [(⟨"ghost", Effect.Simple⟩, "ghost")], 0⟩
    "ghost" "ghost" ⟨"ghost", Effect.Simple⟩ (by decide) (by decide)

/-- Claim C3: for a selected item whose name has exactly one storage row
(unique names, flag `b`), one toggle flips exactly that row's flag to
`!b` and nothing else, re-inserts the item at the same index with the
style determined by the new flag (strikethrough iff it is true), and
restores the selection to that index - style and write both derive from
the single fetched value `b`. -/
theorem set_status_single_toggle (s : AppState) (task d : String) (b : Bool)
    (lbl : StyledString)
    (hnd : ((s.storage.map Task.name)).Nodup)
    (hf : s.storage.find? (fun t => t.name = task) = some ⟨task, b⟩)
    (hsel : s.view.get? s.focus = some (lbl, d)) :
    (∃ i, s.storage.get? i = some ⟨task, b⟩ ∧
      (set_status s task).storage = s.storage.set i ⟨task, !b⟩) ∧
    (set_status s task).view =
      s.view.set s.focus
        (⟨task, if !b then Effect.Strikethrough else Effect.Simple⟩, d) ∧
    ((if !b then Effect.Strikethrough else Effect.Simple) =
      Effect.Strikethrough ↔ !b = true) ∧
    (set_status s task).focus = s.focus := by
  have hlt : s.focus < s.view.length := get?_some_lt s.view s.focus _ hsel
  have hgs : get_status s.storage task = b := get_status_of_find s.storage task b hf
  have hred := set_status_eq s task lbl d hsel
  rw [hgs] at hred
  obtain ⟨i, hg, hu⟩ := update_status_set s.storage task b b hnd hf
  refine ⟨⟨i, hg, ?_⟩, ?_, ?_, ?_⟩
  · rw [hred]
    exact hu
  · rw [hred]
    cases b
    · show insert_item (remove_item s.view s.focus) s.focus
        (⟨task, Effect.Strikethrough⟩, d) = _
      exact insert_remove_set s.view s.focus _ hlt
    · show insert_item (remove_item s.view s.focus) s.focus
        (⟨task, Effect.Simple⟩, d) = _
      exact insert_remove_set s.view s.focus _ hlt
  · cases b <;> decide
  · rw [hred]

/-- Witness for C3: one pending task "A", selected, toggled once. -/
theorem set_status_single_toggle_witness :
    (∃ i, ([⟨"A", false⟩] : Storage).get? i = some ⟨"A", false⟩ ∧
      (set_status ⟨[⟨"A", false⟩], [(⟨"A", Effect.Simple⟩, "A")], 0⟩
        "A").storage = ([⟨"A", false⟩] : Storage).set i ⟨"A", !false⟩) ∧
    (set_status ⟨[⟨"A", false⟩], [(⟨"A", Effect.Simple⟩, "A")], 0⟩ "A").view =
      ([(⟨"A", Effect.Simple⟩, "A")] : List Item).set 0
        (⟨"A", if !false then Effect.Strikethrough else Effect.Simple⟩, "A") ∧
    ((if !false then Effect.Strikethrough else Effect.Simple) =
      Effect.Strikethrough ↔ !false = true) ∧
    (set_status ⟨[⟨"A", false⟩], [(⟨"A", Effect.Simple⟩, "A")], 0⟩
      "A").focus = 0 :=
  set_status_single_toggle
    ⟨[⟨"A", false⟩], [(⟨"A", Effect.Simple⟩, "A")], 0⟩
    "A" "A" false ⟨"A", Effect.Simple⟩ (by decide) (by decide) (by decide)

/-- Claim C2: toggling the selected task twice is the identity on the
whole application state - the persisted flag, the rendered style and
the selection all return to their original values - provided the task
has a (unique-name) storage row and its visible label currently renders
that row's flag. -/
theorem toggle_self_inverse (s : AppState) (task : String) (b : Bool)
    (hnd : ((s.storage.map Task.name)).Nodup)
    (hf : s.storage.find? (fun t => t.name = task) = some ⟨task, b⟩)
    (hsel : s.view.get? s.focus =
      some (⟨task, if b then Effect.Strikethrough else Effect.Simple⟩, task)) :
    set_status (set_status s task) task = s := by
  obtain ⟨st, v, f⟩ := s
  have hgs : get_status st task = b := get_status_of_find st task b hf
  have hlt : f < v.length := get?_some_lt v f _ hsel
  have hred1 := set_status_eq ⟨st, v, f⟩ task
    ⟨task, if b then Effect.Strikethrough else Effect.Simple⟩ task hsel
  rw [show (⟨st, v, f⟩ : AppState).storage = st from rfl,
    show (⟨st, v, f⟩ : AppState).view = v from rfl,
    show (⟨st, v, f⟩ : AppState).focus = f from rfl, hgs] at hred1
  have hlen : f ≤ (remove_item v f).length := by
    rw [length_remove_item v f hlt]
    omega
  have hf1 : (update_status st task b).find? (fun t => t.name = task) =
      some ⟨task, !b⟩ := find?_update st task b b hf
  have hgs1 : get_status (update_status st task b) task = !b :=
    get_status_of_find _ task (!b) hf1
  have huu : update_status (update_status st task b) task (!b) = st :=
    update_update st task b hnd hf
  cases b
  · -- pending task: first toggle styles it strikethrough, second back
    rw [hred1]
    show set_status ⟨update_status st task false,
      insert_item (remove_item v f) f (⟨task, Effect.Strikethrough⟩, task),
      f⟩ task = ⟨st, v, f⟩
    have hsel1 : (insert_item (remove_item v f) f
        (⟨task, Effect.Strikethrough⟩, task)).get? f =
        some (⟨task, Effect.Strikethrough⟩, task) :=
      get_insert (remove_item v f) f _ hlen
    have hred2 : set_status ⟨update_status st task false,
        insert_item (remove_item v f) f (⟨task, Effect.Strikethrough⟩, task),
        f⟩ task =
      ⟨update_status (update_status st task false) task
          (get_status (update_status st task false) task),
        (if !(get_status (update_status st task false) task) then
          insert_item (remove_item (insert_item (remove_item v f) f
            (⟨task, Effect.Strikethrough⟩, task)) f) f
            (⟨task, Effect.Strikethrough⟩, task)
        else
          insert_item (remove_item (insert_item (remove_item v f) f
            (⟨task, Effect.Strikethrough⟩, task)) f) f
            (⟨task, Effect.Simple⟩, task)),
        f⟩ :=
      set_status_eq ⟨update_status st task false,
        insert_item (remove_item v f) f (⟨task, Effect.Strikethrough⟩, task),
        f⟩ task ⟨task, Effect.Strikethrough⟩ task hsel1
    rw [hgs1] at hred2
    rw [hred2]
    show (⟨update_status (update_status st task false) task (!false),
      insert_item (remove_item (insert_item (remove_item v f) f
        (⟨task, Effect.Strikethrough⟩, task)) f) f
        (⟨task, Effect.Simple⟩, task),
      f⟩ : AppState) = ⟨st, v, f⟩
    rw [remove_insert (remove_item v f) f _ hlen]
    rw [insert_remove_set v f _ hlt]
    have hsel2 : v.get? f =
        some ((⟨task, Effect.Simple⟩ : StyledString), task) := hsel
    rw [set_get_self v f _ hsel2]
    rw [huu]
  · -- completed task: first toggle styles it plain, second back
    rw [hred1]
    show set_status ⟨update_status st task true,
      insert_item (remove_item v f) f (⟨task, Effect.Simple⟩, task),
      f⟩ task = ⟨st, v, f⟩
    have hsel1 : (insert_item (remove_item v f) f
        (⟨task, Effect.Simple⟩, task)).get? f =
        some (⟨task, Effect.Simple⟩, task) :=
      get_insert (remove_item v f) f _ hlen
    have hred2 : set_status ⟨update_status st task true,
        insert_item (remove_item v f) f (⟨task, Effect.Simple⟩, task),
        f⟩ task =
      ⟨update_status (update_status st task true) task
          (get_status (update_status st task true) task),
        (if !(get_status (update_status st task true) task) then
          insert_item (remove_item (insert_item (remove_item v f) f
            (⟨task, Effect.Simple⟩, task)) f) f
            (⟨task, Effect.Strikethrough⟩, task)
        else
          insert_item (remove_item (insert_item (remove_item v f) f
            (⟨task, Effect.Simple⟩, task)) f) f
            (⟨task, Effect.Simple⟩, task)),
        f⟩ :=
      set_status_eq ⟨update_status st task true,
        insert_item (remove_item v f) f (⟨task, Effect.Simple⟩, task),
        f⟩ task ⟨task, Effect.Simple⟩ task hsel1
    rw [hgs1] at hred2
    rw [hred2]
    show (⟨update_status (update_status st task true) task (!true),
      insert_item (remove_item (insert_item (remove_item v f) f
        (⟨task, Effect.Simple⟩, task)) f) f
        (⟨task, Effect.Strikethrough⟩, task),
      f⟩ : AppState) = ⟨st, v, f⟩
    rw [remove_insert (remove_item v f) f _ hlen]
    rw [insert_remove_set v f _ hlt]
    have hsel2 : v.get? f =
        some ((⟨task, Effect.Strikethrough⟩ : StyledString), task) := hsel
    rw [set_get_self v f _ hsel2]
    rw [huu]

/-- Witness for C2: one completed task "A", selected, toggled twice. -/
theorem toggle_self_inverse_witness :
    set_status (set_status
      ⟨[⟨"A", true⟩], [(⟨"A", Effect.Strikethrough⟩, "A")], 0⟩ "A") "A" =
      ⟨[⟨"A", true⟩], [(⟨"A", Effect.Strikethrough⟩, "A")], 0⟩ :=
  toggle_self_inverse
    ⟨[⟨"A", true⟩], [(⟨"A", Effect.Strikethrough⟩, "A")], 0⟩
    "A" true (by decide) (by decide) (by decide)

end RustyTodo
